import Mathlib

/-!
Verification of the device-composition and symbolic-equation-assembly core of
the Dian power-system repository (files `dian/devices/devicebase.py` and
`dian/devices/pvgen.py`), via a shallow embedding in Lean 4.

Modelling conventions:
* sympy expressions are modelled by the inductive type `Dian.Expr`; a sympy
  `MutableDenseNDimArray` / `Array` value substituted as a whole is modelled
  by the cons-structured constructors `arrNil` / `arrCons` (an array of
  expressions is itself an expression in sympy).
* `expr.free_symbols` is a set in sympy; it is modelled as the duplicate-free
  list of symbol names in occurrence order (`Expr.freeSyms`).
* Python exceptions are modelled by `Dian.PyErr`; fallible code returns
  `Except PyErr _`.  `d[k]` on a `dict` raises `KeyError(k)`, `min([])`
  raises `ValueError`, a failing `assert` raises `AssertionError(msg)`,
  missing attribute access raises `AttributeError(name)`.
* A Python instance `__dict__` holding per-element arrays of symbols/values
  is modelled as an association list `List (String × List Expr)`; dict
  insertion order (new keys appended at the end) is preserved by `assocSet`.
-/

namespace Dian

/-- Symbolic expression trees, standing in for sympy expressions.  Sympy
arrays (which the singleton substitution path substitutes wholesale) are
expressions too, built from `arrNil` and `arrCons`. -/
inductive Expr where
  | const : Int → Expr
  | sym : String → Expr
  | add : Expr → Expr → Expr
  | mul : Expr → Expr → Expr
  | neg : Expr → Expr
  | arrNil : Expr
  | arrCons : Expr → Expr → Expr
deriving DecidableEq, Repr

/-- View a Lean list of expressions as a sympy array expression. -/
def Expr.arrOfList (xs : List Expr) : Expr :=
  xs.foldr Expr.arrCons Expr.arrNil

/-- All symbol occurrences of an expression, in occurrence order. -/
def Expr.freeSymsList : Expr → List String
  | .const _ => []
  | .sym s => [s]
  | .add a b => a.freeSymsList ++ b.freeSymsList
  | .mul a b => a.freeSymsList ++ b.freeSymsList
  | .neg a => a.freeSymsList
  | .arrNil => []
  | .arrCons a b => a.freeSymsList ++ b.freeSymsList

/-- `expr.free_symbols`: the set of free symbols, as a duplicate-free list. -/
def Expr.freeSyms (e : Expr) : List String :=
  e.freeSymsList.dedup

/-- Substitution of a single symbol by a value (one step of sympy
`expr.subs([(x, v), ...])`, which applies the pairs sequentially). -/
def Expr.subst1 : Expr → String → Expr → Expr
  | .const c, _, _ => .const c
  | .sym s, x, v => if s = x then v else .sym s
  | .add a b, x, v => .add (a.subst1 x v) (b.subst1 x v)
  | .mul a b, x, v => .mul (a.subst1 x v) (b.subst1 x v)
  | .neg a, x, v => .neg (a.subst1 x v)
  | .arrNil, _, _ => .arrNil
  | .arrCons a b, x, v => .arrCons (a.subst1 x v) (b.subst1 x v)

/-- sympy `expr.subs(pairs)` with the default sequential semantics: each
pair is substituted into the result of the previous one, left to right. -/
def substSeq (ps : List (String × Expr)) (e : Expr) : Expr :=
  ps.foldl (fun acc p => acc.subst1 p.1 p.2) e

/-- sympy `expr.subs(pairs, simultaneous=True)`: every symbol occurrence of
the original expression is replaced in one pass by the value of the first
pair matching it; replacement values are never substituted into again. -/
def Expr.substSim (ps : List (String × Expr)) : Expr → Expr
  | .const c => .const c
  | .sym s =>
    match ps.lookup s with
    | some v => v
    | none => .sym s
  | .add a b => .add (a.substSim ps) (b.substSim ps)
  | .mul a b => .mul (a.substSim ps) (b.substSim ps)
  | .neg a => .neg (a.substSim ps)
  | .arrNil => .arrNil
  | .arrCons a b => .arrCons (a.substSim ps) (b.substSim ps)

/-- Python exceptions relevant to the embedded code. -/
inductive PyErr where
  | keyError : String → PyErr
  | valueError : String → PyErr
  | assertionError : String → PyErr
  | attributeError : String → PyErr
  | indexError : String → PyErr
deriving DecidableEq, Repr

/-- The text Python would print for the exception (its type and payload). -/
def PyErr.message : PyErr → String
  | .keyError k => "KeyError: " ++ k
  | .valueError m => "ValueError: " ++ m
  | .assertionError m => "AssertionError: " ++ m
  | .attributeError m => "AttributeError: " ++ m
  | .indexError m => "IndexError: " ++ m

/-- The error text mentions the string `s` (as a contiguous substring). -/
def PyErr.mentions (e : PyErr) (s : String) : Prop :=
  s.toList <:+: e.message.toList

instance (e : PyErr) (s : String) : Decidable (e.mentions s) :=
  List.decidableInfix s.toList e.message.toList

/-- Error-propagating map, mirroring a Python list comprehension in which
the body may raise: the first raise aborts the whole comprehension. -/
def mapE {α β : Type} (f : α → Except PyErr β) : List α → Except PyErr (List β)
  | [] => .ok []
  | a :: l =>
    match f a with
    | .error e => .error e
    | .ok b =>
      match mapE f l with
      | .error e => .error e
      | .ok bs => .ok (b :: bs)

/-- Python dict assignment `d[k] = v` on an association list: overwrite in
place when the key exists, else append at the end (insertion order). -/
def assocSet {α : Type} (l : List (String × α)) (k : String) (v : α) :
    List (String × α) :=
  if (l.lookup k).isSome then
    l.map (fun p => if p.1 = k then (k, v) else p)
  else
    l ++ [(k, v)]

/-- The state of one `DeviceBase` instance (`dian/devices/devicebase.py`),
restricted to the members the verified methods read or write.  The Python
instance `__dict__` holds both per-element symbol/value arrays (here the
association list `vals`) and, for non-computational foreign-key parameters
such as `bus`, per-element index columns (here `param_vals`). -/
structure Device where
  className : String
  idx : List Nat
  intMap : List (Nat × Nat)
  param_int : List String
  foreign_keys : List (String × String)
  param_vals : List (String × List Nat)
  algeb_int : List String
  algeb_intf : List String
  algeb_ext : List (String × String × String)
  gcall_ext : List (String × Expr)
  gcall_int : List (String × Expr)
  param_int_computed : List (String × Expr)
  no_algeb_ext_check : Bool
  vals : List (String × List Expr)
  symbol_singleton : List (String × String)
  daeAddress : List (String × List Nat)
deriving DecidableEq, Repr

/-- `DeviceBase.n`: the element count, `len(self.idx)`. -/
def Device.n (d : Device) : Nat :=
  d.idx.length

/-- `DeviceBase._subs_all_vectorized`: for each element index below the
minimum length of the referenced per-class arrays, substitute every free
symbol of the template by that array's i-th entry (sequential sympy `subs`);
symbols whose array is empty are skipped inside the loop.  `min([])` on a
template without free symbols raises `ValueError`; an undeclared symbol
raises `KeyError` from the `__dict__` lookup. -/
def Device.subs_all_vectorized (d : Device) (eq : Expr) :
    Except PyErr (List Expr) :=
  match mapE (fun s =>
      match d.vals.lookup s with
      | some arr => Except.ok (s, arr)
      | none => Except.error (PyErr.keyError s)) eq.freeSyms with
  | .error e => .error e
  | .ok pairs =>
    match pairs.map (fun p => p.2.length) with
    | [] => .error (.valueError "min arg is an empty sequence")
    | L :: Ls =>
      let n := Ls.foldl Nat.min L
      .ok ((List.range n).map (fun i =>
        substSeq ((pairs.filter (fun p => p.2.length != 0)).map
          (fun p => (p.1, p.2.getD i (Expr.const 0)))) eq))

/-- `DeviceBase._subs_all_singleton`: substitute every free symbol by the
whole per-class array, with sympy `subs(..., simultaneous=True)`. -/
def Device.subs_all_singleton (d : Device) (eq : Expr) : Except PyErr Expr :=
  match mapE (fun s =>
      match d.vals.lookup s with
      | some arr => Except.ok (s, Expr.arrOfList arr)
      | none => Except.error (PyErr.keyError s)) eq.freeSyms with
  | .error e => .error e
  | .ok ps => .ok (eq.substSim ps)

/-- `DeviceBase.idx2int`: map external indices through `self._int`; a
missing key raises `KeyError` from the dict lookup. -/
def Device.idx2int (d : Device) (idx : List Nat) : Except PyErr (List Nat) :=
  mapE (fun i =>
    match d.intMap.lookup i with
    | some r => Except.ok r
    | none => Except.error (PyErr.keyError (toString i))) idx

/-- `DeviceBase.create_n_default_elements`: `idx = range(n)` and the
identity idx-to-int mapping. -/
def Device.create_n_default_elements (d : Device) (n : Nat) : Device :=
  { d with idx := List.range n, intMap := (List.range n).map (fun i => (i, i)) }

/-- `DeviceBase._check_number_of_algeb_equations`: two sequential asserts —
external-equation count must equal `_algeb_ext` count unless the
`no_algeb_ext_check` flag is set, and `_gcall_int` must hold at least
`len(_algeb_int) - len(_algeb_intf)` equations. -/
def Device.check_number_of_algeb_equations (d : Device) : Except PyErr Unit :=
  if d.no_algeb_ext_check = false ∧ d.algeb_ext.length ≠ d.gcall_ext.length then
    Except.error (PyErr.assertionError
      (d.className ++ " Number of _algeb_ext does not equal _gcall_ext"))
  else if ¬ (d.algeb_int.length - d.algeb_intf.length ≤ d.gcall_int.length) then
    Except.error (PyErr.assertionError
      (d.className ++ " Too few gcall_int equations"))
  else
    Except.ok ()

/-- `DeviceBase.metadata_check`: runs the equation-count subroutine. -/
def Device.metadata_check (d : Device) : Except PyErr Unit :=
  d.check_number_of_algeb_equations

/-- The loop body sequence of `DeviceBase._compute_param_int`: evaluate each
derived-parameter equation with `_subs_all_vectorized` against the current
`__dict__` and store the result under the parameter name at once. -/
def computeParamIntGo : Device → List (String × Expr) → Except PyErr Device
  | d, [] => Except.ok d
  | d, (var, eq) :: rest =>
    match d.subs_all_vectorized eq with
    | .error e => .error e
    | .ok v => computeParamIntGo { d with vals := assocSet d.vals var v } rest

/-- `DeviceBase._compute_param_int`: one forward pass over
`self._param_int_computed` in declaration order. -/
def Device.compute_param_int (d : Device) : Except PyErr Device :=
  computeParamIntGo d d.param_int_computed

/-- The loop of `DeviceBase.delayed_symbol_sub` (vectorized branch, as used
by `delayed_symbol_sub_all`): for each input equation, skip it when
`update` is false and the key is already in the output dict, else store the
vectorized substitution result under the key. -/
def delayedSymbolSubGo (d : Device) (update : Bool) :
    List (String × Expr) → List (String × List Expr) →
    Except PyErr (List (String × List Expr))
  | [], outD => Except.ok outD
  | (var, eq) :: rest, outD =>
    if update = false ∧ (outD.lookup var).isSome then
      delayedSymbolSubGo d update rest outD
    else
      match d.subs_all_vectorized eq with
      | .error e => .error e
      | .ok v => delayedSymbolSubGo d update rest (assocSet outD var v)

/-- `DeviceBase.delayed_symbol_sub` with `subs_type='vectorized'`, acting on
the input and output dictionaries named by the two `str` arguments. -/
def Device.delayed_symbol_sub (d : Device) (inD : List (String × Expr))
    (outD : List (String × List Expr)) (update : Bool) :
    Except PyErr (List (String × List Expr)) :=
  delayedSymbolSubGo d update inD outD

/-- Python `str.lower()`, written over the character list so that it
evaluates inside the kernel (the class names involved are ASCII). -/
def pyLower (s : String) : String :=
  String.mk (s.data.map Char.toLower)

/-- The system registry: devices exposed as attributes keyed by the
lower-cased class name (`self.system.__dict__[name.lower()]`). -/
structure DSystem where
  devices : List (String × Device)
deriving DecidableEq, Repr

/-- Attribute access `self.system.__dict__[name.lower()]`. -/
def DSystem.attr (sys : DSystem) (name : String) : Except PyErr Device :=
  match sys.devices.lookup (pyLower name) with
  | some d => Except.ok d
  | none => Except.error (PyErr.attributeError (pyLower name))

/-- Python sequence indexing `xs[i]`: the item when in range, else an
`IndexError`. -/
def getItemOr {α : Type} (o : Option α) (e : PyErr) : Except PyErr α :=
  match o with
  | some a => Except.ok a
  | none => Except.error e

/-- `DeviceBase.get_list_of_symbols_from_ext`: fetch the referenced
device's per-element symbols of `var_name` at the resolved row indices. -/
def getListOfSymbolsFromExt (sys : DSystem) (dev var_name : String)
    (int_idx : List Nat) : Except PyErr (List Expr) :=
  match sys.attr dev with
  | .error e => .error e
  | .ok dref =>
    match dref.vals.lookup var_name with
    | none => Except.error (PyErr.keyError var_name)
    | some arr =>
      mapE (fun i =>
        getItemOr arr[i]? (PyErr.indexError "list index out of range")) int_idx

/-- `DeviceBase._get_int_of_element`: assert the device is a foreign-key
target, read this device's foreign-key column, and convert it through the
referenced device's `idx2int`. -/
def Device.get_int_of_element (d : Device) (sys : DSystem) (dev fkey : String) :
    Except PyErr (List Nat) :=
  if ¬ (dev ∈ d.foreign_keys.map (fun p => p.2)) then
    Except.error (PyErr.assertionError "")
  else
    match d.param_vals.lookup fkey with
    | none => Except.error (PyErr.keyError fkey)
    | some fkey_values =>
      match sys.attr dev with
      | .error e => .error e
      | .ok dref => dref.idx2int fkey_values

/-- One iteration of the loop in `DeviceBase.get_algeb_ext`, for the entry
`dest : (fkey, var_name)` of `self._algeb_ext`: resolve the row indices
(through the foreign key when `fkey` is a declared parameter, else through
the referenced device's own `idx` list), then import the dae addresses and
the per-element symbols of `var_name`, storing them under `dest`. -/
def Device.resolve_algeb_ext_entry (d : Device) (sys : DSystem)
    (dest fkey var_name : String) : Except PyErr Device :=
  let devAndKeys : Except PyErr (String × List Nat) :=
    if fkey ∈ d.param_int then
      match d.foreign_keys.lookup fkey with
      | none => Except.error (PyErr.keyError fkey)
      | some dev =>
        match d.get_int_of_element sys dev fkey with
        | .error e => .error e
        | .ok int_keys => Except.ok (dev, int_keys)
    else
      match sys.attr fkey with
      | .error e => .error e
      | .ok fdev =>
        match sys.attr fkey with
        | .error e => .error e
        | .ok ddev =>
          match ddev.idx2int fdev.idx with
          | .error e => .error e
          | .ok int_keys => Except.ok (fkey, int_keys)
  match devAndKeys with
  | .error e => .error e
  | .ok (dev, int_keys) =>
    match sys.attr dev with
    | .error e => .error e
    | .ok dev_ref =>
      match dev_ref.daeAddress.lookup var_name with
      | none => Except.error (PyErr.keyError var_name)
      | some addr =>
        match mapE (fun i =>
            getItemOr addr[i]? (PyErr.indexError "index out of range"))
            int_keys with
        | .error e => .error e
        | .ok dest_addr =>
          match getListOfSymbolsFromExt sys dev var_name int_keys with
          | .error e => .error e
          | .ok syms =>
            Except.ok { d with
              daeAddress := assocSet d.daeAddress dest dest_addr,
              vals := assocSet d.vals dest syms,
              symbol_singleton := assocSet d.symbol_singleton dest var_name }

/-- The loop of `DeviceBase.get_algeb_ext` over all `_algeb_ext` entries. -/
def getAlgebExtGo (sys : DSystem) :
    Device → List (String × String × String) → Except PyErr Device
  | d, [] => Except.ok d
  | d, (dest, fkey, var_name) :: rest =>
    match d.resolve_algeb_ext_entry sys dest fkey var_name with
    | .error e => .error e
    | .ok d2 => getAlgebExtGo sys d2 rest

/-- `DeviceBase.get_algeb_ext`. -/
def Device.get_algeb_ext (d : Device) (sys : DSystem) : Except PyErr Device :=
  getAlgebExtGo sys d d.algeb_ext

/-- The attribute names created by `DeviceBase.__init__`
(`devicebase.py` lines 25-113), in assignment order. -/
def deviceBaseAttrs : List String :=
  ["system", "idx", "_options", "_param_data", "_param_int",
   "_param_int_default", "_param_int_non_computational",
   "_param_int_computed", "_param_int_custom", "_param_ext",
   "_param_ext_computed", "_int", "_foreign_keys", "_algeb_int",
   "_algeb_intf", "_algeb_ext", "_var_int_computed", "_var_int_custom",
   "_state_int", "_state_intf", "_state_ext", "_workflow", "_gcall_ext",
   "_gcall_ext_symbolic_singleton", "_gcall_ext_symbolic",
   "_symbol_singleton", "_gcall_int", "_gcall_int_symbolic_singleton",
   "_gcall_int_symbolic", "_special_flags", "_var_int_non_commutative",
   "_dae_address"]

/-- The instance attributes `PV.__init__` reads (to call `.extend`,
`.update`, ...) after `DeviceBase.__init__` returns, in program order
(`pvgen.py` lines 8-32).  None of these statements creates an attribute:
each is a method call on an attribute that must already exist. -/
def pvInitAttrAccesses : List String :=
  ["_param_int", "_param_int_non_computational", "_param_int_mandatory",
   "_param_int_default", "_foreign_keys", "_algeb_ext", "_algeb_int",
   "_gcall_int", "_gcall_ext"]

/-- The attribute reads of `Slack.__init__` (`pvgen.py` lines 35-53): the
whole of `PV.__init__` through `super()`, then its own accesses. -/
def slackInitAttrAccesses : List String :=
  pvInitAttrAccesses ++
  ["_param_int", "_param_int_default", "_param_int", "_param_int_default",
   "_algeb_int", "_gcall_int", "_gcall_ext"]

/-- Run a sequence of instance-attribute reads against the set of existing
attributes: the first read of a missing attribute raises
`AttributeError` naming it, aborting the constructor. -/
def runInitAccesses (attrs : List String) : List String → Except PyErr Unit
  | [] => Except.ok ()
  | s :: rest =>
    if s ∈ attrs then runInitAccesses attrs rest
    else Except.error (PyErr.attributeError s)

/-- Spec-side definition, following the spec's words on substitution: all
substitutions of one call are applied simultaneously, each symbol occurrence
being replaced independently through the binding `f` alone, so that the
replacement of one symbol can never touch the replacement value of
another. -/
def specSubstEach (f : String → Option Expr) : Expr → Expr
  | .const c => .const c
  | .sym s =>
    match f s with
    | some v => v
    | none => .sym s
  | .add a b => .add (specSubstEach f a) (specSubstEach f b)
  | .mul a b => .mul (specSubstEach f a) (specSubstEach f b)
  | .neg a => .neg (specSubstEach f a)
  | .arrNil => .arrNil
  | .arrCons a b => .arrCons (specSubstEach f a) (specSubstEach f b)

theorem mapE_ok_of_forall {α β : Type} (f : α → Except PyErr β) (g : α → β)
    (l : List α) (h : ∀ a ∈ l, f a = Except.ok (g a)) :
    mapE f l = Except.ok (l.map g) := by
  induction l with
  | nil => rfl
  | cons a t ih =>
    have ha := h a (List.mem_cons_self a t)
    have ht := ih (fun x hx => h x (List.mem_cons_of_mem a hx))
    simp [mapE, ha, ht]

theorem mapE_forall₂ {α β : Type} (f : α → Except PyErr β) :
    ∀ (l : List α) (r : List β), mapE f l = Except.ok r →
      List.Forall₂ (fun a b => f a = Except.ok b) l r := by
  intro l
  induction l with
  | nil =>
    intro r h
    cases h
    exact List.Forall₂.nil
  | cons a t ih =>
    intro r h
    simp only [mapE] at h
    cases hfa : f a with
    | error e => rw [hfa] at h; cases h
    | ok b =>
      rw [hfa] at h
      cases hmt : mapE f t with
      | error e => rw [hmt] at h; cases h
      | ok bs =>
        rw [hmt] at h
        cases h
        exact List.Forall₂.cons hfa (ih bs hmt)

theorem mapE_error_of_exists {α β : Type} (f : α → Except PyErr β)
    (l : List α) (h : ∃ a ∈ l, ∀ b, f a ≠ Except.ok b) :
    ∃ a ∈ l, ∃ e, f a = Except.error e ∧ mapE f l = Except.error e := by
  induction l with
  | nil => simp at h
  | cons x t ih =>
    cases hfx : f x with
    | error e =>
      exact ⟨x, List.mem_cons_self x t, e, hfx, by simp [mapE, hfx]⟩
    | ok b =>
      have hmem : ∃ a ∈ t, ∀ c, f a ≠ Except.ok c := by
        rcases h with ⟨a, hmem, hne⟩
        rcases List.mem_cons.mp hmem with rfl | hmemt
        · exact absurd hfx (hne b)
        · exact ⟨a, hmemt, hne⟩
      rcases ih hmem with ⟨a, hat, e, hfa, hmape⟩
      exact ⟨a, List.mem_cons_of_mem x hat, e, hfa, by simp [mapE, hfx, hmape]⟩

theorem lookup_cons_ite {β : Type} (k a : String) (b : β)
    (t : List (String × β)) :
    List.lookup k ((a, b) :: t) = if k = a then some b else List.lookup k t := by
  by_cases h : k = a
  · subst h; simp [List.lookup_cons]
  · simp [List.lookup_cons, beq_false_of_ne h, h]

theorem lookup_eq_none_of_not_mem_keys {β : Type} (l : List (String × β))
    (k : String) (h : k ∉ l.map Prod.fst) : List.lookup k l = none := by
  induction l with
  | nil => rfl
  | cons p t ih =>
    obtain ⟨a, b⟩ := p
    simp only [List.map_cons, List.mem_cons, not_or] at h
    rw [lookup_cons_ite, if_neg h.1]
    exact ih h.2

theorem lookup_append_left {β : Type} (l1 l2 : List (String × β)) (k : String)
    (h : (List.lookup k l1).isSome) :
    List.lookup k (l1 ++ l2) = List.lookup k l1 := by
  induction l1 with
  | nil => simp [List.lookup] at h
  | cons p t ih =>
    obtain ⟨a, b⟩ := p
    by_cases hka : k = a
    · rw [List.cons_append, lookup_cons_ite, if_pos hka, lookup_cons_ite,
        if_pos hka]
    · rw [List.cons_append, lookup_cons_ite, if_neg hka, lookup_cons_ite,
        if_neg hka]
      apply ih
      rwa [lookup_cons_ite, if_neg hka] at h

theorem lookup_append_right {β : Type} (l1 l2 : List (String × β)) (k : String)
    (h : List.lookup k l1 = none) :
    List.lookup k (l1 ++ l2) = List.lookup k l2 := by
  induction l1 with
  | nil => rfl
  | cons p t ih =>
    obtain ⟨a, b⟩ := p
    by_cases hka : k = a
    · rw [lookup_cons_ite, if_pos hka] at h
      cases h
    · rw [lookup_cons_ite, if_neg hka] at h
      rw [List.cons_append, lookup_cons_ite, if_neg hka]
      exact ih h

theorem assocSet_of_lookup_none {β : Type} (l : List (String × β))
    (k : String) (v : β) (h : List.lookup k l = none) :
    assocSet l k v = l ++ [(k, v)] := by
  simp [assocSet, h]

theorem lookup_map_overwrite_self {β : Type} (l : List (String × β))
    (k : String) (v : β) (hs : (List.lookup k l).isSome) :
    List.lookup k (l.map (fun p => if p.1 = k then (k, v) else p)) = some v := by
  induction l with
  | nil => simp [List.lookup] at hs
  | cons p t ih =>
    obtain ⟨a, b⟩ := p
    by_cases hak : a = k
    · subst hak
      have hhead : (if (a, b).1 = a then (a, v) else (a, b)) = (a, v) := by simp
      rw [List.map_cons, hhead, lookup_cons_ite, if_pos rfl]
    · have h2 : k ≠ a := fun he => hak he.symm
      rw [lookup_cons_ite, if_neg h2] at hs
      have hhead : (if (a, b).1 = k then (k, v) else (a, b)) = (a, b) := by
        simp [hak]
      rw [List.map_cons, hhead, lookup_cons_ite, if_neg h2]
      exact ih hs

theorem lookup_map_overwrite_ne {β : Type} (l : List (String × β))
    (k k2 : String) (v : β) (h : k2 ≠ k) :
    List.lookup k2 (l.map (fun p => if p.1 = k then (k, v) else p)) =
      List.lookup k2 l := by
  induction l with
  | nil => rfl
  | cons p t ih =>
    obtain ⟨a, b⟩ := p
    by_cases hak : a = k
    · subst hak
      have hhead : (if (a, b).1 = a then (a, v) else (a, b)) = (a, v) := by simp
      rw [List.map_cons, hhead, lookup_cons_ite, if_neg h, lookup_cons_ite,
        if_neg h]
      exact ih
    · have hhead : (if (a, b).1 = k then (k, v) else (a, b)) = (a, b) := by
        simp [hak]
      rw [List.map_cons, hhead, lookup_cons_ite, lookup_cons_ite]
      by_cases h3 : k2 = a
      · simp [h3]
      · simp [h3, ih]

theorem lookup_assocSet_self {β : Type} (l : List (String × β))
    (k : String) (v : β) : List.lookup k (assocSet l k v) = some v := by
  unfold assocSet
  by_cases hs : (List.lookup k l).isSome
  · rw [if_pos hs]
    exact lookup_map_overwrite_self l k v hs
  · rw [if_neg hs]
    have hnone : List.lookup k l = none := by
      cases hl : List.lookup k l
      · rfl
      · rw [hl] at hs; simp at hs
    rw [lookup_append_right l _ k hnone, lookup_cons_ite, if_pos rfl]

theorem lookup_assocSet_ne {β : Type} (l : List (String × β))
    (k k2 : String) (v : β) (h : k2 ≠ k) :
    List.lookup k2 (assocSet l k v) = List.lookup k2 l := by
  unfold assocSet
  by_cases hs : (List.lookup k l).isSome
  · rw [if_pos hs]
    exact lookup_map_overwrite_ne l k k2 v h
  · rw [if_neg hs]
    by_cases hs2 : (List.lookup k2 l).isSome
    · exact lookup_append_left l _ k2 hs2
    · have hnone : List.lookup k2 l = none := by
        cases hl : List.lookup k2 l
        · rfl
        · rw [hl] at hs2; simp at hs2
      rw [lookup_append_right l _ k2 hnone, hnone, lookup_cons_ite, if_neg h]
      rfl

theorem substSim_of_lookup_none (ps : List (String × Expr)) (e : Expr)
    (h : ∀ s ∈ e.freeSymsList, List.lookup s ps = none) : e.substSim ps = e := by
  induction e with
  | const c => rfl
  | sym s =>
    have hs := h s (by simp [Expr.freeSymsList])
    simp [Expr.substSim, hs]
  | add a b iha ihb =>
    simp only [Expr.substSim]
    rw [iha (fun s hs => h s (by
        simp only [Expr.freeSymsList]
        exact List.mem_append.mpr (Or.inl hs))),
      ihb (fun s hs => h s (by
        simp only [Expr.freeSymsList]
        exact List.mem_append.mpr (Or.inr hs)))]
  | mul a b iha ihb =>
    simp only [Expr.substSim]
    rw [iha (fun s hs => h s (by
        simp only [Expr.freeSymsList]
        exact List.mem_append.mpr (Or.inl hs))),
      ihb (fun s hs => h s (by
        simp only [Expr.freeSymsList]
        exact List.mem_append.mpr (Or.inr hs)))]
  | neg a iha =>
    simp only [Expr.substSim]
    rw [iha (fun s hs => h s (by simpa [Expr.freeSymsList] using hs))]
  | arrNil => rfl
  | arrCons a b iha ihb =>
    simp only [Expr.substSim]
    rw [iha (fun s hs => h s (by
        simp only [Expr.freeSymsList]
        exact List.mem_append.mpr (Or.inl hs))),
      ihb (fun s hs => h s (by
        simp only [Expr.freeSymsList]
        exact List.mem_append.mpr (Or.inr hs)))]

theorem substSim_subst1_cons (x : String) (v : Expr) (ps : List (String × Expr))
    (e : Expr)
    (hv : ∀ s ∈ v.freeSymsList, List.lookup s ps = none) :
    (e.subst1 x v).substSim ps = e.substSim ((x, v) :: ps) := by
  induction e with
  | const c => rfl
  | sym s =>
    by_cases hsx : s = x
    · subst hsx
      have h1 : (Expr.sym s).subst1 s v = v := by simp [Expr.subst1]
      rw [h1, substSim_of_lookup_none ps v hv]
      simp [Expr.substSim, lookup_cons_ite]
    · simp only [Expr.subst1, if_neg hsx]
      simp only [Expr.substSim, lookup_cons_ite, if_neg hsx]
  | add a b iha ihb => simp only [Expr.subst1, Expr.substSim, iha, ihb]
  | mul a b iha ihb => simp only [Expr.subst1, Expr.substSim, iha, ihb]
  | neg a iha => simp only [Expr.subst1, Expr.substSim, iha]
  | arrNil => rfl
  | arrCons a b iha ihb => simp only [Expr.subst1, Expr.substSim, iha, ihb]

theorem substSeq_eq_substSim (ps : List (String × Expr)) (e : Expr)
    (hnd : (ps.map Prod.fst).Nodup)
    (hval : ∀ p ∈ ps, ∀ s ∈ p.2.freeSymsList, s ∉ ps.map Prod.fst) :
    substSeq ps e = e.substSim ps := by
  induction ps generalizing e with
  | nil =>
    exact (substSim_of_lookup_none [] e (fun s _ => rfl)).symm
  | cons p t ih =>
    obtain ⟨x, v⟩ := p
    have hstep : substSeq ((x, v) :: t) e = substSeq t (e.subst1 x v) := rfl
    rw [List.map_cons, List.nodup_cons] at hnd
    have hvt : ∀ s ∈ v.freeSymsList, List.lookup s t = none := by
      intro s hs
      apply lookup_eq_none_of_not_mem_keys
      have := hval (x, v) (List.mem_cons_self _ _) s hs
      intro hmem
      exact this (by simp only [List.map_cons]; exact List.mem_cons_of_mem _ hmem)
    rw [hstep, ih (e.subst1 x v) hnd.2 ?hvt2, substSim_subst1_cons x v t _ hvt]
    case hvt2 =>
      intro q hq s hs hmem
      exact hval q (List.mem_cons_of_mem _ hq) s hs
        (by simp only [List.map_cons]; exact List.mem_cons_of_mem _ hmem)

theorem substSim_eq_specSubstEach (ps : List (String × Expr))
    (f : String → Option Expr) (e : Expr)
    (h : ∀ s ∈ e.freeSymsList, List.lookup s ps = f s) :
    e.substSim ps = specSubstEach f e := by
  induction e with
  | const c => rfl
  | sym s =>
    have hs := h s (by simp [Expr.freeSymsList])
    simp only [Expr.substSim, specSubstEach, hs]
  | add a b iha ihb =>
    simp only [Expr.substSim, specSubstEach]
    rw [iha (fun s hs => h s (by
        simp only [Expr.freeSymsList]
        exact List.mem_append.mpr (Or.inl hs))),
      ihb (fun s hs => h s (by
        simp only [Expr.freeSymsList]
        exact List.mem_append.mpr (Or.inr hs)))]
  | mul a b iha ihb =>
    simp only [Expr.substSim, specSubstEach]
    rw [iha (fun s hs => h s (by
        simp only [Expr.freeSymsList]
        exact List.mem_append.mpr (Or.inl hs))),
      ihb (fun s hs => h s (by
        simp only [Expr.freeSymsList]
        exact List.mem_append.mpr (Or.inr hs)))]
  | neg a iha =>
    simp only [Expr.substSim, specSubstEach]
    rw [iha (fun s hs => h s (by simpa [Expr.freeSymsList] using hs))]
  | arrNil => rfl
  | arrCons a b iha ihb =>
    simp only [Expr.substSim, specSubstEach]
    rw [iha (fun s hs => h s (by
        simp only [Expr.freeSymsList]
        exact List.mem_append.mpr (Or.inl hs))),
      ihb (fun s hs => h s (by
        simp only [Expr.freeSymsList]
        exact List.mem_append.mpr (Or.inr hs)))]

theorem freeSymsList_substSim_avoids (ps : List (String × Expr))
    (S : List String) (e : Expr)
    (h : ∀ s ∈ e.freeSymsList, ∃ v, List.lookup s ps = some v ∧
      ∀ t ∈ v.freeSymsList, t ∉ S) :
    ∀ t ∈ (e.substSim ps).freeSymsList, t ∉ S := by
  induction e with
  | const c => intro t ht; cases ht
  | sym s =>
    obtain ⟨v, hv, hdisj⟩ := h s (by simp [Expr.freeSymsList])
    intro t ht
    simp only [Expr.substSim, hv] at ht
    exact hdisj t ht
  | add a b iha ihb =>
    intro t ht
    simp only [Expr.substSim, Expr.freeSymsList] at ht
    rcases List.mem_append.mp ht with h1 | h1
    · exact iha (fun s hs => h s (by
        simp only [Expr.freeSymsList]
        exact List.mem_append.mpr (Or.inl hs))) t h1
    · exact ihb (fun s hs => h s (by
        simp only [Expr.freeSymsList]
        exact List.mem_append.mpr (Or.inr hs))) t h1
  | mul a b iha ihb =>
    intro t ht
    simp only [Expr.substSim, Expr.freeSymsList] at ht
    rcases List.mem_append.mp ht with h1 | h1
    · exact iha (fun s hs => h s (by
        simp only [Expr.freeSymsList]
        exact List.mem_append.mpr (Or.inl hs))) t h1
    · exact ihb (fun s hs => h s (by
        simp only [Expr.freeSymsList]
        exact List.mem_append.mpr (Or.inr hs))) t h1
  | neg a iha =>
    intro t ht
    simp only [Expr.substSim, Expr.freeSymsList] at ht
    exact iha (fun s hs => h s (by simpa [Expr.freeSymsList] using hs)) t ht
  | arrNil => intro t ht; cases ht
  | arrCons a b iha ihb =>
    intro t ht
    simp only [Expr.substSim, Expr.freeSymsList] at ht
    rcases List.mem_append.mp ht with h1 | h1
    · exact iha (fun s hs => h s (by
        simp only [Expr.freeSymsList]
        exact List.mem_append.mpr (Or.inl hs))) t h1
    · exact ihb (fun s hs => h s (by
        simp only [Expr.freeSymsList]
        exact List.mem_append.mpr (Or.inr hs))) t h1

theorem foldl_min_le_init (ls : List Nat) (X : Nat) :
    ls.foldl Nat.min X ≤ X := by
  induction ls generalizing X with
  | nil => exact Nat.le_refl X
  | cons b t ih =>
    rw [List.foldl_cons]
    calc t.foldl Nat.min (Nat.min X b) ≤ Nat.min X b := ih _
      _ ≤ X := Nat.min_le_left _ _

theorem foldl_min_le_mem (ls : List Nat) (X a : Nat) (h : a ∈ ls) :
    ls.foldl Nat.min X ≤ a := by
  induction ls generalizing X with
  | nil => cases h
  | cons b t ih =>
    rw [List.foldl_cons]
    rcases List.mem_cons.mp h with rfl | hmem
    · calc t.foldl Nat.min (Nat.min X a) ≤ Nat.min X a := foldl_min_le_init t _
        _ ≤ a := Nat.min_le_right _ _
    · exact ih _ hmem

theorem foldl_min_all_eq (ls : List Nat) (X m : Nat) (hX : X = m)
    (h : ∀ a ∈ ls, a = m) : ls.foldl Nat.min X = m := by
  induction ls generalizing X with
  | nil => simpa using hX
  | cons b t ih =>
    rw [List.foldl_cons]
    apply ih
    · rw [hX, h b (List.mem_cons_self _ _)]
      exact Nat.min_self m
    · exact fun a ha => h a (List.mem_cons_of_mem _ ha)

theorem range_map_getD_eq_take {α : Type} (l : List α) (dflt : α) (n : Nat)
    (h : n ≤ l.length) :
    (List.range n).map (fun i => l.getD i dflt) = l.take n := by
  induction n with
  | zero => simp
  | succ k ih =>
    have hk : k < l.length := h
    rw [List.range_succ, List.map_append, ih (Nat.le_of_succ_le h),
      List.take_succ]
    simp [List.getD_eq_getElem?_getD, List.getElem?_eq_getElem hk]

/-- The per-element array stored in `__dict__` under `s` (meaningful when
the lookup succeeds). -/
def Device.valOf (d : Device) (s : String) : List Expr :=
  (List.lookup s d.vals).getD []

theorem mapE_vals_ok (d : Device) (l : List String)
    (hall : ∀ s ∈ l, (List.lookup s d.vals).isSome) :
    mapE (fun s => match List.lookup s d.vals with
      | some arr => Except.ok (s, arr)
      | none => Except.error (PyErr.keyError s)) l =
    Except.ok (l.map (fun s => (s, d.valOf s))) := by
  apply mapE_ok_of_forall
  intro s hs
  have h2 := hall s hs
  cases hl : List.lookup s d.vals with
  | some arr => simp [Device.valOf, hl]
  | none => rw [hl] at h2; simp at h2

theorem subs_all_vectorized_ok_eq (d : Device) (eq : Expr) (s0 : String)
    (rest : List String) (hfs : eq.freeSyms = s0 :: rest)
    (hall : ∀ s ∈ eq.freeSyms, (List.lookup s d.vals).isSome) :
    d.subs_all_vectorized eq = Except.ok ((List.range
        (((rest.map (fun s => (s, d.valOf s))).map (fun p => p.2.length)).foldl
          Nat.min (d.valOf s0).length)).map (fun i =>
      substSeq ((((s0 :: rest).map (fun s => (s, d.valOf s))).filter
        (fun p => p.2.length != 0)).map
          (fun p => (p.1, p.2.getD i (Expr.const 0)))) eq)) := by
  have hmap := mapE_vals_ok d eq.freeSyms hall
  rw [hfs] at hmap
  unfold Device.subs_all_vectorized
  rw [hfs, hmap]
  simp only [List.map_cons]

/-- A blank device state, used to build the concrete example devices. -/
def blankDevice : Device :=
  { className := "Device", idx := [], intMap := [], param_int := ["name", "u"],
    foreign_keys := [], param_vals := [], algeb_int := [], algeb_intf := [],
    algeb_ext := [], gcall_ext := [], gcall_int := [], param_int_computed := [],
    no_algeb_ext_check := false, vals := [], symbol_singleton := [],
    daeAddress := [] }

/-- C9: Constructing a `PV` device fails with an attribute-lookup error
before the constructor completes: `PV.__init__` calls
`self._param_int_mandatory.extend(...)` but `DeviceBase.__init__` never
creates a `_param_int_mandatory` attribute, so the access raises
`AttributeError`; `Slack.__init__` runs the whole of `PV.__init__` first
(through `super()`) and fails identically.  The attribute accesses never
consult the `system` argument, so this holds for every system, and no PV or
Slack element can ever be added through the construction API. -/
theorem c9_pv_and_slack_construction_fails :
    runInitAccesses deviceBaseAttrs pvInitAttrAccesses =
      Except.error (PyErr.attributeError "_param_int_mandatory") ∧
    runInitAccesses deviceBaseAttrs slackInitAttrAccesses =
      Except.error (PyErr.attributeError "_param_int_mandatory") ∧
    "_param_int_mandatory" ∉ deviceBaseAttrs := by
  refine ⟨rfl, rfl, by decide⟩

/-- A device on which `metadata_check` refutes C3: its single imported
interface variable has a matching external-equation contribution, so the
claim's first alternative holds, yet the check still fails because the
device has two internal algebraic variables, no interface variables and no
internal equations. -/
def c3Device : Device :=
  { blankDevice with
      className := "Bus", idx := [0], intMap := [(0, 0)],
      algeb_int := ["a", "v"], algeb_intf := [],
      algeb_ext := [("p", "pq", "p")],
      gcall_ext := [("p", Expr.sym "p0")], gcall_int := [] }

/-- C3 counterexample: the claim says the structural check succeeds when the
device has EITHER exactly k matching imported-equation contributions for its
k imported interface variables OR enough internal equations.  `c3Device`
satisfies the first alternative (k = 1 on both sides, flag not set), yet
`metadata_check` fails, because the code requires BOTH conditions, not
either. -/
theorem c3_counterexample :
    c3Device.algeb_ext.length = c3Device.gcall_ext.length ∧
    c3Device.no_algeb_ext_check = false ∧
    c3Device.metadata_check =
      Except.error (PyErr.assertionError "Bus Too few gcall_int equations") :=
  ⟨rfl, rfl, by rfl⟩

/-- C3 (amended): `metadata_check` succeeds exactly when BOTH hold — the
imported-interface-variable count equals the external-equation-contribution
count (unless exempted via the `no_algeb_ext_check` flag), AND the internal
equation count is at least internal-variable count minus
interface-variable count; any failure is an assertion error whose message
starts with the device name (the numeric shortfall is not reported). -/
theorem c3_metadata_check_characterization (d : Device) :
    (d.metadata_check = Except.ok () ↔
      ((d.no_algeb_ext_check = true ∨
          d.algeb_ext.length = d.gcall_ext.length) ∧
        d.algeb_int.length - d.algeb_intf.length ≤ d.gcall_int.length)) ∧
    (∀ e, d.metadata_check = Except.error e →
      ∃ msg, e = PyErr.assertionError (d.className ++ msg)) := by
  unfold Device.metadata_check Device.check_number_of_algeb_equations
  constructor
  · constructor
    · intro h
      by_cases h1 : d.no_algeb_ext_check = false ∧
          d.algeb_ext.length ≠ d.gcall_ext.length
      · rw [if_pos h1] at h; cases h
      · rw [if_neg h1] at h
        by_cases h2 : ¬(d.algeb_int.length - d.algeb_intf.length ≤
            d.gcall_int.length)
        · rw [if_pos h2] at h; cases h
        · refine ⟨?_, not_not.mp h2⟩
          cases hb : d.no_algeb_ext_check with
          | true => left; rfl
          | false =>
            right
            by_contra hne
            exact h1 ⟨hb, hne⟩
    · rintro ⟨hor, hle⟩
      have h1 : ¬(d.no_algeb_ext_check = false ∧
          d.algeb_ext.length ≠ d.gcall_ext.length) := by
        rintro ⟨hfalse, hne⟩
        rcases hor with ht | heq
        · rw [ht] at hfalse; cases hfalse
        · exact hne heq
      rw [if_neg h1, if_neg (not_not.mpr hle)]
  · intro e he
    by_cases h1 : d.no_algeb_ext_check = false ∧
        d.algeb_ext.length ≠ d.gcall_ext.length
    · rw [if_pos h1] at he
      cases he
      exact ⟨" Number of _algeb_ext does not equal _gcall_ext", rfl⟩
    · rw [if_neg h1] at he
      by_cases h2 : ¬(d.algeb_int.length - d.algeb_intf.length ≤
          d.gcall_int.length)
      · rw [if_pos h2] at he
        cases he
        exact ⟨" Too few gcall_int equations", rfl⟩
      · rw [if_neg h2] at he
        cases he

/-- A structurally consistent device: one internal variable with one
internal equation, one import with one external contribution. -/
def c3WitnessDevice : Device :=
  { blankDevice with
      className := "PV", idx := [0], intMap := [(0, 0)],
      algeb_int := ["q"], algeb_intf := [],
      algeb_ext := [("a", "bus", "a")],
      gcall_ext := [("a", Expr.neg (Expr.sym "p0"))],
      gcall_int := [("q", Expr.add (Expr.sym "v") (Expr.neg (Expr.sym "v0")))] }

theorem c3_witness : c3WitnessDevice.metadata_check = Except.ok () :=
  (c3_metadata_check_characterization c3WitnessDevice).1.mpr
    ⟨Or.inr rfl, by decide⟩

/-- C5: `idx2int` converts external indices to internal row indices through
the `self._int` mapping, index-aligned with its input; if any requested idx
was never added to the mapping, the call fails with a `KeyError` naming
that idx; no default row index is ever silently substituted. -/
theorem c5_idx2int_total_or_keyerror (d : Device) (idx : List Nat) :
    ((∀ i ∈ idx, (List.lookup i d.intMap).isSome) →
      ∃ l, d.idx2int idx = Except.ok l ∧
        List.Forall₂ (fun i r => List.lookup i d.intMap = some r) idx l) ∧
    ((∃ i ∈ idx, List.lookup i d.intMap = none) →
      ∃ i ∈ idx, List.lookup i d.intMap = none ∧
        d.idx2int idx = Except.error (PyErr.keyError (toString i))) := by
  constructor
  · intro h
    have hpt : ∀ i ∈ idx, (fun i => match List.lookup i d.intMap with
        | some r => Except.ok r
        | none => Except.error (PyErr.keyError (toString i))) i =
        Except.ok ((List.lookup i d.intMap).getD 0) := by
      intro i hi
      have h2 := h i hi
      cases hl : List.lookup i d.intMap with
      | some r => simp [hl]
      | none => rw [hl] at h2; simp at h2
    have hmap := mapE_ok_of_forall _ _ idx hpt
    refine ⟨idx.map (fun i => (List.lookup i d.intMap).getD 0), hmap, ?_⟩
    rw [List.forall₂_map_right_iff, List.forall₂_same]
    intro i hi
    have h2 := h i hi
    cases hl : List.lookup i d.intMap with
    | some r => simp [hl]
    | none => rw [hl] at h2; simp at h2
  · intro h
    obtain ⟨i0, hi0, hnone⟩ := h
    have hex : ∃ a ∈ idx, ∀ b, (fun i => match List.lookup i d.intMap with
        | some r => Except.ok r
        | none => Except.error (PyErr.keyError (toString i))) a ≠
        Except.ok b := by
      refine ⟨i0, hi0, ?_⟩
      intro b hb
      simp only [hnone] at hb
      cases hb
    obtain ⟨a, ha, e, hfa, hmape⟩ := mapE_error_of_exists _ idx hex
    cases hl : List.lookup a d.intMap with
    | some r => simp only [hl] at hfa; cases hfa
    | none =>
      simp only [hl] at hfa
      cases hfa
      exact ⟨a, ha, hl, hmape⟩

/-- A device with two elements whose caller-chosen external indices are 5
and 7, in that insertion order. -/
def c5Device : Device :=
  { blankDevice with
      className := "Bus", idx := [5, 7], intMap := [(5, 0), (7, 1)] }

theorem c5_witness :
    (∃ l, c5Device.idx2int [7, 5] = Except.ok l ∧
      List.Forall₂ (fun i r => List.lookup i c5Device.intMap = some r)
        [7, 5] l) ∧
    (∃ i ∈ [5, 9], List.lookup i c5Device.intMap = none ∧
      c5Device.idx2int [5, 9] =
        Except.error (PyErr.keyError (toString i))) := by
  constructor
  · exact (c5_idx2int_total_or_keyerror c5Device [7, 5]).1 (by decide)
  · exact (c5_idx2int_total_or_keyerror c5Device [5, 9]).2 ⟨9, by decide, rfl⟩

theorem keyError_mentions_key (k : String) :
    (PyErr.keyError k).mentions k := by
  unfold PyErr.mentions PyErr.message
  have h : ("KeyError: " ++ k).toList = "KeyError: ".toList ++ k.toList := by
    simp [String.toList]
  rw [h]
  exact (List.suffix_append _ _).isInfix

/-- A device on which the expansion of a template mentioning an empty
quantity refutes C6: x is declared but empty, y has one element. -/
def c6Device : Device :=
  { blankDevice with
      className := "PQ", idx := [0], intMap := [(0, 0)],
      vals := [("x", []), ("y", [Expr.sym "PQ_y_0"])] }

/-- C6 counterexample: the claim predicts that the empty quantity x is
skipped with a diagnostic and expansion still yields one equation per
element of the remaining non-empty quantity y (which has one element).  The
code instead takes the element count as the minimum length over ALL
referenced quantities — min(0, 1) = 0 — and returns zero equations, so the
in-loop skip branch never executes. -/
theorem c6_counterexample :
    c6Device.subs_all_vectorized (Expr.add (Expr.sym "x") (Expr.sym "y")) =
      Except.ok [] := rfl

/-- C6 (amended): when every referenced quantity is declared and at least
one of them is empty, vectorized expansion returns zero concrete equations
and no error (regardless of the other quantities' lengths): the element
count is the minimum length over all referenced quantities, so the in-loop
empty-quantity skip branch is unreachable. -/
theorem c6_empty_quantity_yields_no_equations (d : Device) (eq : Expr)
    (hall : ∀ s ∈ eq.freeSyms, (List.lookup s d.vals).isSome)
    (hempty : ∃ s ∈ eq.freeSyms, List.lookup s d.vals = some []) :
    d.subs_all_vectorized eq = Except.ok [] := by
  obtain ⟨s1, hs1, hs1e⟩ := hempty
  obtain ⟨s0, rest, hfs⟩ : ∃ s0 rest, eq.freeSyms = s0 :: rest := by
    cases hcase : eq.freeSyms with
    | nil => rw [hcase] at hs1; cases hs1
    | cons a t => exact ⟨a, t, rfl⟩
  rw [subs_all_vectorized_ok_eq d eq s0 rest hfs hall]
  have hn : ((rest.map (fun s => (s, d.valOf s))).map
      (fun p => p.2.length)).foldl Nat.min (d.valOf s0).length = 0 := by
    rw [hfs] at hs1
    rcases List.mem_cons.mp hs1 with rfl | hmem
    · apply Nat.le_zero.mp
      have h0 : (d.valOf s1).length = 0 := by simp [Device.valOf, hs1e]
      rw [h0]
      exact foldl_min_le_init _ 0
    · apply Nat.le_zero.mp
      have h0 : (0 : Nat) ∈ (rest.map (fun s => (s, d.valOf s))).map
          (fun p => p.2.length) := by
        rw [List.map_map]
        refine List.mem_map.mpr ⟨s1, hmem, ?_⟩
        simp [Device.valOf, hs1e]
      exact foldl_min_le_mem _ _ 0 h0
  rw [hn]
  rfl

/-- A two-element device whose quantity p is declared but empty while q has
one per-element symbol per element. -/
def c6WitnessDevice : Device :=
  { blankDevice with
      className := "Line", idx := [0, 1], intMap := [(0, 0), (1, 1)],
      vals := [("p", []),
               ("q", [Expr.sym "Line_q_0", Expr.sym "Line_q_1"])] }

theorem c6_witness :
    c6WitnessDevice.subs_all_vectorized
      (Expr.mul (Expr.sym "p") (Expr.sym "q")) = Except.ok [] :=
  c6_empty_quantity_yields_no_equations c6WitnessDevice
    (Expr.mul (Expr.sym "p") (Expr.sym "q")) (by decide) ⟨"p", by decide, rfl⟩

/-- A PV device declaring only the per-element quantity v. -/
def c4Device : Device :=
  { blankDevice with
      className := "PV", idx := [0], intMap := [(0, 0)],
      vals := [("v", [Expr.sym "PV_v_0"])] }

/-- C4 counterexample: expanding a template that references the undeclared
symbol zz on a device of class PV fails with `KeyError` raised by the
`__dict__` lookup; the error payload and its printed message contain only
the symbol name, so the claim that the expansion failure names the symbol
AND the device is false — the device name PV appears nowhere in the
error. -/
theorem c4_counterexample :
    c4Device.subs_all_vectorized (Expr.add (Expr.sym "v") (Expr.sym "zz")) =
      Except.error (PyErr.keyError "zz") ∧
    (PyErr.keyError "zz").mentions "zz" ∧
    ¬ (PyErr.keyError "zz").mentions "PV" ∧
    c4Device.className = "PV" := by
  refine ⟨rfl, by decide, by decide, rfl⟩

/-- C4 (amended): if some free symbol of the template does not name a
declared quantity of the device, both the vectorized and the singleton
expansion fail with a `KeyError` naming a missing symbol; the error does
not carry the device. -/
theorem c4_missing_symbol_fails (d : Device) (eq : Expr)
    (h : ∃ s ∈ eq.freeSyms, List.lookup s d.vals = none) :
    (∃ s ∈ eq.freeSyms, List.lookup s d.vals = none ∧
      d.subs_all_vectorized eq = Except.error (PyErr.keyError s) ∧
      (PyErr.keyError s).mentions s) ∧
    (∃ s ∈ eq.freeSyms, List.lookup s d.vals = none ∧
      d.subs_all_singleton eq = Except.error (PyErr.keyError s) ∧
      (PyErr.keyError s).mentions s) := by
  obtain ⟨s1, hs1, hnone⟩ := h
  constructor
  · have hex : ∃ a ∈ eq.freeSyms, ∀ b,
        (fun s => match List.lookup s d.vals with
          | some arr => Except.ok (s, arr)
          | none => Except.error (PyErr.keyError s)) a ≠ Except.ok b :=
      ⟨s1, hs1, by intro b hb; simp only [hnone] at hb; cases hb⟩
    obtain ⟨a, ha, e, hfa, hmape⟩ := mapE_error_of_exists _ _ hex
    cases hl : List.lookup a d.vals with
    | some arr => simp only [hl] at hfa; cases hfa
    | none =>
      simp only [hl] at hfa
      cases hfa
      refine ⟨a, ha, hl, ?_, keyError_mentions_key a⟩
      unfold Device.subs_all_vectorized
      rw [hmape]
  · have hex : ∃ a ∈ eq.freeSyms, ∀ b,
        (fun s => match List.lookup s d.vals with
          | some arr => Except.ok (s, Expr.arrOfList arr)
          | none => Except.error (PyErr.keyError s)) a ≠ Except.ok b :=
      ⟨s1, hs1, by intro b hb; simp only [hnone] at hb; cases hb⟩
    obtain ⟨a, ha, e, hfa, hmape⟩ := mapE_error_of_exists _ _ hex
    cases hl : List.lookup a d.vals with
    | some arr => simp only [hl] at hfa; cases hfa
    | none =>
      simp only [hl] at hfa
      cases hfa
      refine ⟨a, ha, hl, ?_, keyError_mentions_key a⟩
      unfold Device.subs_all_singleton
      rw [hmape]

/-- A PQ device declaring only the per-element quantity a. -/
def c4WitnessDevice : Device :=
  { blankDevice with
      className := "PQ", idx := [0], intMap := [(0, 0)],
      vals := [("a", [Expr.sym "PQ_a_0"])] }

theorem c4_witness :
    (∃ s ∈ (Expr.mul (Expr.sym "a") (Expr.sym "w")).freeSyms,
      List.lookup s c4WitnessDevice.vals = none ∧
      c4WitnessDevice.subs_all_vectorized
        (Expr.mul (Expr.sym "a") (Expr.sym "w")) =
        Except.error (PyErr.keyError s) ∧
      (PyErr.keyError s).mentions s) ∧
    (∃ s ∈ (Expr.mul (Expr.sym "a") (Expr.sym "w")).freeSyms,
      List.lookup s c4WitnessDevice.vals = none ∧
      c4WitnessDevice.subs_all_singleton
        (Expr.mul (Expr.sym "a") (Expr.sym "w")) =
        Except.error (PyErr.keyError s) ∧
      (PyErr.keyError s).mentions s) :=
  c4_missing_symbol_fails c4WitnessDevice
    (Expr.mul (Expr.sym "a") (Expr.sym "w")) ⟨"w", by decide, rfl⟩

theorem mapE_vals_arr_ok (d : Device) (l : List String)
    (hall : ∀ s ∈ l, (List.lookup s d.vals).isSome) :
    mapE (fun s => match List.lookup s d.vals with
      | some arr => Except.ok (s, Expr.arrOfList arr)
      | none => Except.error (PyErr.keyError s)) l =
    Except.ok (l.map (fun s => (s, Expr.arrOfList (d.valOf s)))) := by
  apply mapE_ok_of_forall
  intro s hs
  have h2 := hall s hs
  cases hl : List.lookup s d.vals with
  | some arr => simp [Device.valOf, hl]
  | none => rw [hl] at h2; simp at h2

/-- C7: `_subs_all_singleton` applies all substitutions of one call
simultaneously — whenever every free symbol of the template names a
declared quantity, the result is the independent replacement of each symbol
occurrence by that symbol's own whole-array value, so the replacement
performed for one symbol is never affected by (nor applied inside) the
replacement value of any other symbol of the same call, even when a
replacement value contains another free symbol of the template. -/
theorem c7_singleton_substitution_simultaneous (d : Device) (eq : Expr)
    (hall : ∀ s ∈ eq.freeSyms, (List.lookup s d.vals).isSome) :
    d.subs_all_singleton eq = Except.ok (specSubstEach
      (fun s => (List.lookup s d.vals).map Expr.arrOfList) eq) := by
  have hmap := mapE_vals_arr_ok d eq.freeSyms hall
  unfold Device.subs_all_singleton
  rw [hmap]
  refine congrArg Except.ok ?_
  apply substSim_eq_specSubstEach
  intro s hs
  have hs2 : s ∈ eq.freeSyms := List.mem_dedup.mpr hs
  have h2 := hall s hs2
  rw [List.lookup_graph (fun s => Expr.arrOfList (d.valOf s)) hs2]
  cases hl : List.lookup s d.vals with
  | some arr => simp [Device.valOf, hl]
  | none => rw [hl] at h2; simp at h2

/-- A device whose quantity x has a stored value that itself contains the
other free symbol y of the template — the aliasing situation the claim is
about. -/
def c7WitnessDevice : Device :=
  { blankDevice with
      className := "Gen", idx := [0], intMap := [(0, 0)],
      vals := [("x", [Expr.sym "y"]), ("y", [Expr.const 5])] }

theorem c7_witness :
    c7WitnessDevice.subs_all_singleton
        (Expr.add (Expr.sym "x") (Expr.sym "y")) =
      Except.ok (specSubstEach
        (fun s => (List.lookup s c7WitnessDevice.vals).map Expr.arrOfList)
        (Expr.add (Expr.sym "x") (Expr.sym "y"))) ∧
    specSubstEach
        (fun s => (List.lookup s c7WitnessDevice.vals).map Expr.arrOfList)
        (Expr.add (Expr.sym "x") (Expr.sym "y")) =
      Expr.add (Expr.arrCons (Expr.sym "y") Expr.arrNil)
        (Expr.arrCons (Expr.const 5) Expr.arrNil) :=
  ⟨c7_singleton_substitution_simultaneous c7WitnessDevice
    (Expr.add (Expr.sym "x") (Expr.sym "y")) (by decide), rfl⟩

theorem delayedSymbolSubGo_preserves (d : Device) (l : List (String × Expr)) :
    ∀ (outD out1 : List (String × List Expr)),
      delayedSymbolSubGo d false l outD = Except.ok out1 →
      ∀ k, (List.lookup k outD).isSome →
        List.lookup k out1 = List.lookup k outD := by
  induction l with
  | nil =>
    intro outD out1 h k hk
    cases h
    rfl
  | cons q t ih =>
    obtain ⟨var, eqn⟩ := q
    intro outD out1 h k hk
    by_cases hv : (List.lookup var outD).isSome
    · simp only [delayedSymbolSubGo] at h
      rw [if_pos ⟨trivial, hv⟩] at h
      exact ih outD out1 h k hk
    · simp only [delayedSymbolSubGo] at h
      rw [if_neg (fun hc => hv hc.2)] at h
      cases hsub : d.subs_all_vectorized eqn with
      | error e => rw [hsub] at h; cases h
      | ok v =>
        rw [hsub] at h
        have hnone : List.lookup var outD = none := by
          cases hl : List.lookup var outD
          · rfl
          · rw [hl] at hv; simp at hv
        have happ : assocSet outD var v = outD ++ [(var, v)] :=
          assocSet_of_lookup_none outD var v hnone
        have hk2 : (List.lookup k (assocSet outD var v)).isSome := by
          rw [happ, lookup_append_left outD _ k hk]
          exact hk
        rw [ih (assocSet outD var v) out1 h k hk2, happ,
          lookup_append_left outD _ k hk]

theorem delayedSymbolSubGo_adds_keys (d : Device) (l : List (String × Expr)) :
    ∀ (outD out1 : List (String × List Expr)),
      delayedSymbolSubGo d false l outD = Except.ok out1 →
      ∀ p ∈ l, (List.lookup p.1 out1).isSome := by
  induction l with
  | nil =>
    intro outD out1 h p hp
    cases hp
  | cons q t ih =>
    obtain ⟨var, eqn⟩ := q
    intro outD out1 h p hp
    by_cases hv : (List.lookup var outD).isSome
    · simp only [delayedSymbolSubGo] at h
      rw [if_pos ⟨trivial, hv⟩] at h
      rcases List.mem_cons.mp hp with rfl | hmem
      · rw [delayedSymbolSubGo_preserves d t outD out1 h var hv]
        exact hv
      · exact ih outD out1 h p hmem
    · simp only [delayedSymbolSubGo] at h
      rw [if_neg (fun hc => hv hc.2)] at h
      cases hsub : d.subs_all_vectorized eqn with
      | error e => rw [hsub] at h; cases h
      | ok v =>
        rw [hsub] at h
        rcases List.mem_cons.mp hp with rfl | hmem
        · have hself : (List.lookup var (assocSet outD var v)).isSome := by
            rw [lookup_assocSet_self]
            rfl
          rw [delayedSymbolSubGo_preserves d t _ out1 h var hself]
          exact hself
        · exact ih _ out1 h p hmem

theorem delayedSymbolSubGo_skips_all (d : Device) (l : List (String × Expr))
    (outD : List (String × List Expr))
    (h : ∀ p ∈ l, (List.lookup p.1 outD).isSome) :
    delayedSymbolSubGo d false l outD = Except.ok outD := by
  induction l with
  | nil => rfl
  | cons q t ih =>
    obtain ⟨var, eqn⟩ := q
    have hv := h (var, eqn) (List.mem_cons_self _ _)
    simp only [delayedSymbolSubGo]
    rw [if_pos ⟨trivial, hv⟩]
    exact ih (fun p hp => h p (List.mem_cons_of_mem _ hp))

/-- C10: `delayed_symbol_sub` with `update=False` (the default, as used by
`delayed_symbol_sub_all`) leaves every key already present in the output
dictionary bound to its old value, and running the call a second time on
its own output returns that output unchanged (idempotence): every input key
is present after the first run, so the second run skips everything. -/
theorem c10_delayed_symbol_sub_no_update (d : Device)
    (inD : List (String × Expr)) (outD out1 : List (String × List Expr))
    (h : d.delayed_symbol_sub inD outD false = Except.ok out1) :
    (∀ k, (List.lookup k outD).isSome →
      List.lookup k out1 = List.lookup k outD) ∧
    d.delayed_symbol_sub inD out1 false = Except.ok out1 := by
  unfold Device.delayed_symbol_sub at h ⊢
  refine ⟨delayedSymbolSubGo_preserves d inD outD out1 h, ?_⟩
  exact delayedSymbolSubGo_skips_all d inD out1
    (delayedSymbolSubGo_adds_keys d inD outD out1 h)

/-- A device with two per-element quantities g and b. -/
def c10Device : Device :=
  { blankDevice with
      className := "Shunt", idx := [0], intMap := [(0, 0)],
      vals := [("g", [Expr.sym "Shunt_g_0"]), ("b", [Expr.sym "Shunt_b_0"])] }

theorem c10_witness :
    (∀ k, (List.lookup k [("v", [Expr.const 7])]).isSome →
      List.lookup k [("v", [Expr.const 7]), ("w", [Expr.sym "Shunt_b_0"])] =
      List.lookup k [("v", [Expr.const 7])]) ∧
    c10Device.delayed_symbol_sub [("v", Expr.sym "g"), ("w", Expr.sym "b")]
      [("v", [Expr.const 7]), ("w", [Expr.sym "Shunt_b_0"])] false =
      Except.ok [("v", [Expr.const 7]), ("w", [Expr.sym "Shunt_b_0"])] :=
  c10_delayed_symbol_sub_no_update c10Device
    [("v", Expr.sym "g"), ("w", Expr.sym "b")]
    [("v", [Expr.const 7])]
    [("v", [Expr.const 7]), ("w", [Expr.sym "Shunt_b_0"])] rfl

theorem computeParamIntGo_append (d : Device) (l1 l2 : List (String × Expr)) :
    computeParamIntGo d (l1 ++ l2) = match computeParamIntGo d l1 with
      | .error e => .error e
      | .ok d1 => computeParamIntGo d1 l2 := by
  induction l1 generalizing d with
  | nil => rfl
  | cons q t ih =>
    obtain ⟨var, eqn⟩ := q
    simp only [List.cons_append, computeParamIntGo]
    cases hsub : d.subs_all_vectorized eqn with
    | error e => rfl
    | ok v => exact ih { d with vals := assocSet d.vals var v }

theorem computeParamIntGo_untouched (d : Device) (l : List (String × Expr)) :
    ∀ d1, computeParamIntGo d l = Except.ok d1 →
      ∀ s, (∀ p ∈ l, p.1 ≠ s) →
        List.lookup s d1.vals = List.lookup s d.vals := by
  induction l generalizing d with
  | nil =>
    intro d1 h s _
    cases h
    rfl
  | cons q t ih =>
    obtain ⟨var, eqn⟩ := q
    intro d1 h s hs
    simp only [computeParamIntGo] at h
    cases hsub : d.subs_all_vectorized eqn with
    | error e => rw [hsub] at h; cases h
    | ok v =>
      rw [hsub] at h
      have hvar : var ≠ s := hs (var, eqn) (List.mem_cons_self _ _)
      have h2 := ih { d with vals := assocSet d.vals var v } d1 h s
        (fun p hp => hs p (List.mem_cons_of_mem _ hp))
      rw [h2]
      exact lookup_assocSet_ne d.vals var s v (Ne.symm hvar)

/-- C8: `_compute_param_int` evaluates the derived-parameter equations of
`self._param_int_computed` in declaration order in one forward pass,
storing each per-element result immediately: if processing the prefix `l1`
of the declarations turns the device state into `d1`, the pass continues by
expanding the next declared parameter's equation against `d1` — which holds
the freshly stored values of every parameter declared before it — and
stores that value before any later declaration is processed; and every
`__dict__` entry whose key is not among the processed prefix (in particular
every derived parameter declared after the current one) is still bound in
`d1` exactly as before the pass began, so no equation is ever expanded
against a value computed for a later-declared parameter. -/
theorem c8_compute_param_forward_pass (d d1 : Device)
    (l1 l2 : List (String × Expr)) (var : String) (eqn : Expr)
    (h : d.param_int_computed = l1 ++ (var, eqn) :: l2)
    (h1 : computeParamIntGo d l1 = Except.ok d1) :
    (d.compute_param_int = match d1.subs_all_vectorized eqn with
      | .error e => .error e
      | .ok v => computeParamIntGo
          { d1 with vals := assocSet d1.vals var v } l2) ∧
    (∀ s, (∀ p ∈ l1, p.1 ≠ s) →
      List.lookup s d1.vals = List.lookup s d.vals) := by
  constructor
  · unfold Device.compute_param_int
    rw [h, computeParamIntGo_append, h1]
    rfl
  · exact computeParamIntGo_untouched d l1 d1 h1

/-- A device with two derived parameters declared in order: a (computed
from the plain parameter x) and then b (computed from a). -/
def c8Device : Device :=
  { blankDevice with
      className := "Xfmr", idx := [0], intMap := [(0, 0)],
      param_int_computed := [("a", Expr.sym "x"), ("b", Expr.sym "a")],
      vals := [("x", [Expr.sym "Xfmr_x_0"]), ("a", [Expr.sym "Xfmr_a_0"]),
               ("b", [Expr.sym "Xfmr_b_0"])] }

/-- `c8Device` after its first derived parameter a has been computed: a now
holds the value of x, while the placeholder of the later parameter b is
untouched. -/
def c8DeviceAfterA : Device :=
  { c8Device with
      vals := [("x", [Expr.sym "Xfmr_x_0"]), ("a", [Expr.sym "Xfmr_x_0"]),
               ("b", [Expr.sym "Xfmr_b_0"])] }

/-- `c8Device` after the whole pass: b was expanded against the freshly
computed a, not against its stale placeholder. -/
def c8FinalDevice : Device :=
  { c8Device with
      vals := [("x", [Expr.sym "Xfmr_x_0"]), ("a", [Expr.sym "Xfmr_x_0"]),
               ("b", [Expr.sym "Xfmr_x_0"])] }

theorem c8_witness :
    c8Device.compute_param_int = Except.ok c8FinalDevice ∧
    (∀ s, (∀ p ∈ [(("a" : String), Expr.sym "x")], p.1 ≠ s) →
      List.lookup s c8DeviceAfterA.vals = List.lookup s c8Device.vals) :=
  c8_compute_param_forward_pass c8Device c8DeviceAfterA
    [("a", Expr.sym "x")] [] "b" (Expr.sym "a") rfl rfl

/-- A one-element device with one declared per-element quantity x. -/
def c1Device : Device :=
  { blankDevice with
      className := "Bus", idx := [0], intMap := [(0, 0)],
      vals := [("x", [Expr.sym "Bus_x_0"])] }

/-- C1 counterexample: on a device with m = 1 element, the constant
template 0 has no free symbols at all, so every free symbol of it trivially
names a declared per-element quantity of length m; the claim then promises
an ordered sequence of exactly one concrete equation, but the code computes
`min([])` over the empty length list and raises `ValueError` instead of
returning any sequence. -/
theorem c1_counterexample :
    c1Device.n = 1 ∧
    c1Device.subs_all_vectorized (Expr.const 0) =
      Except.error (PyErr.valueError "min arg is an empty sequence") :=
  ⟨rfl, rfl⟩

/-- C1 (amended): for every device and every equation template with AT
LEAST ONE free symbol, all of whose free symbols name declared per-element
quantities of length equal to the device's element count m (whose stored
per-element entries do not themselves mention the template's abstract
per-class symbols — the per-element symbols created by `_init_data` never
do), `_subs_all_vectorized` returns an ordered sequence of exactly m
concrete equations, index-aligned with the element rows: the i-th equation
is the template with every free symbol replaced by that quantity's i-th
per-element entry, and no abstract per-class symbol of the template remains
free in it.  A template with no free symbols instead raises `ValueError`
(see the counterexample). -/
theorem c1_vectorized_expansion (d : Device) (eq : Expr) (s0 : String)
    (rest : List String) (hfs : eq.freeSyms = s0 :: rest)
    (hall : ∀ s ∈ eq.freeSyms, (List.lookup s d.vals).isSome ∧
      (d.valOf s).length = d.n)
    (hconc : ∀ s ∈ eq.freeSyms, ∀ v ∈ d.valOf s, ∀ t ∈ eq.freeSyms,
      t ∉ v.freeSymsList) :
    ∃ l, d.subs_all_vectorized eq = Except.ok l ∧ l.length = d.n ∧
      (∀ i : Nat, i < d.n → l[i]? = some (specSubstEach
        (fun s => (List.lookup s d.vals).map
          (fun arr => arr.getD i (Expr.const 0))) eq)) ∧
      (∀ (i : Nat) (e2 : Expr), l[i]? = some e2 →
        ∀ s ∈ eq.freeSyms, s ∉ e2.freeSymsList) := by
  have hall1 : ∀ s ∈ eq.freeSyms, (List.lookup s d.vals).isSome :=
    fun s hs => (hall s hs).1
  have hok := subs_all_vectorized_ok_eq d eq s0 rest hfs hall1
  have hn : ((rest.map (fun s => (s, d.valOf s))).map
      (fun p => p.2.length)).foldl Nat.min (d.valOf s0).length = d.n := by
    apply foldl_min_all_eq
    · exact (hall s0 (by rw [hfs]; exact List.mem_cons_self _ _)).2
    · intro a ha
      rw [List.map_map] at ha
      obtain ⟨s, hsmem, hseq⟩ := List.mem_map.mp ha
      rw [← hseq]
      exact (hall s (by rw [hfs]; exact List.mem_cons_of_mem _ hsmem)).2
  rw [hn] at hok
  -- the per-index substitution pair list, with the dead filter removed
  have hmain : ∀ i, i < d.n →
      substSeq ((((s0 :: rest).map (fun s => (s, d.valOf s))).filter
        (fun p => p.2.length != 0)).map
          (fun p => (p.1, p.2.getD i (Expr.const 0)))) eq =
      Expr.substSim ((s0 :: rest).map
        (fun s => (s, (d.valOf s).getD i (Expr.const 0)))) eq := by
    intro i hi
    have hpos : 0 < d.n := Nat.lt_of_le_of_lt (Nat.zero_le i) hi
    have hfilter : ((s0 :: rest).map (fun s => (s, d.valOf s))).filter
        (fun p => p.2.length != 0) =
        (s0 :: rest).map (fun s => (s, d.valOf s)) := by
      apply List.filter_eq_self.mpr
      intro p hp
      obtain ⟨s, hsmem, rfl⟩ := List.mem_map.mp hp
      have hlen := (hall s (by rw [hfs]; exact hsmem)).2
      simp only [hlen, bne_iff_ne, ne_eq]
      omega
    rw [hfilter, List.map_map]
    have hps : ((fun p : String × List Expr =>
        (p.1, p.2.getD i (Expr.const 0))) ∘ (fun s => (s, d.valOf s))) =
        fun s => (s, (d.valOf s).getD i (Expr.const 0)) := rfl
    rw [hps]
    apply substSeq_eq_substSim
    · have hcomp : (Prod.fst ∘ fun s =>
          (s, (d.valOf s).getD i (Expr.const 0))) = id := rfl
      rw [List.map_map, hcomp, List.map_id, ← hfs]
      exact List.nodup_dedup _
    · intro p hp t ht hmem
      obtain ⟨s, hsmem, rfl⟩ := List.mem_map.mp hp
      have hlen := (hall s (by rw [hfs]; exact hsmem)).2
      have hilen : i < (d.valOf s).length := by rw [hlen]; exact hi
      have hval_mem : (d.valOf s).getD i (Expr.const 0) ∈ d.valOf s := by
        rw [List.getD_eq_getElem?_getD, List.getElem?_eq_getElem hilen,
          Option.getD_some]
        exact List.getElem_mem hilen
      rw [List.map_map] at hmem
      have hcomp : (Prod.fst ∘ fun s =>
          (s, (d.valOf s).getD i (Expr.const 0))) = id := rfl
      rw [hcomp, List.map_id] at hmem
      exact hconc s (by rw [hfs]; exact hsmem) _ hval_mem t
        (by rw [hfs]; exact hmem) ht
  have hsigma : ∀ i, i < d.n →
      Expr.substSim ((s0 :: rest).map
        (fun s => (s, (d.valOf s).getD i (Expr.const 0)))) eq =
      specSubstEach (fun s => (List.lookup s d.vals).map
        (fun arr => arr.getD i (Expr.const 0))) eq := by
    intro i _
    apply substSim_eq_specSubstEach
    intro s hs
    have hs2 : s ∈ s0 :: rest := by rw [← hfs]; exact List.mem_dedup.mpr hs
    rw [List.lookup_graph (fun s => (d.valOf s).getD i (Expr.const 0)) hs2]
    have h2 := hall1 s (by rw [hfs]; exact hs2)
    cases hl : List.lookup s d.vals with
    | some arr => simp [Device.valOf, hl]
    | none => rw [hl] at h2; simp at h2
  refine ⟨_, hok, by simp, ?_, ?_⟩
  · intro i hi
    rw [List.getElem?_map, List.getElem?_range hi, Option.map_some']
    rw [hmain i hi, hsigma i hi]
  · intro i e2 he2 s hs
    rw [List.getElem?_map] at he2
    cases hr : (List.range d.n)[i]? with
    | none => rw [hr] at he2; cases he2
    | some j =>
      rw [hr] at he2
      have hj : j ∈ List.range d.n := List.getElem?_mem hr
      have hjlt : j < d.n := List.mem_range.mp hj
      rw [Option.map_some'] at he2
      have he3 : e2 = Expr.substSim ((s0 :: rest).map
          (fun s => (s, (d.valOf s).getD j (Expr.const 0)))) eq := by
        cases he2
        exact hmain j hjlt
      rw [he3]
      have hargs : ∀ t2 ∈ eq.freeSymsList, ∃ v,
          List.lookup t2 ((s0 :: rest).map
            (fun s => (s, (d.valOf s).getD j (Expr.const 0)))) = some v ∧
          ∀ u ∈ v.freeSymsList, u ∉ eq.freeSyms := by
        intro t2 ht2
        have ht2m : t2 ∈ s0 :: rest := by
          rw [← hfs]
          exact List.mem_dedup.mpr ht2
        refine ⟨(d.valOf t2).getD j (Expr.const 0),
          List.lookup_graph _ ht2m, ?_⟩
        intro u hu hmem2
        have hlen := (hall t2 (by rw [hfs]; exact ht2m)).2
        have hjlen : j < (d.valOf t2).length := by rw [hlen]; exact hjlt
        have hvmem : (d.valOf t2).getD j (Expr.const 0) ∈ d.valOf t2 := by
          rw [List.getD_eq_getElem?_getD, List.getElem?_eq_getElem hjlen,
            Option.getD_some]
          exact List.getElem_mem hjlen
        exact hconc t2 (by rw [hfs]; exact ht2m) _ hvmem u hmem2 hu
      intro hcontra
      exact freeSymsList_substSim_avoids _ eq.freeSyms eq hargs s hcontra hs

/-- A two-element PV device whose quantities v and v0 hold the per-element
symbols `_init_data` would create. -/
def c1WitnessDevice : Device :=
  { blankDevice with
      className := "PV", idx := [0, 1], intMap := [(0, 0), (1, 1)],
      vals := [("v", [Expr.sym "PV_v_0", Expr.sym "PV_v_1"]),
               ("v0", [Expr.sym "PV_v0_0", Expr.sym "PV_v0_1"])] }

theorem c1_witness :
    ∃ l, c1WitnessDevice.subs_all_vectorized
        (Expr.add (Expr.sym "v") (Expr.neg (Expr.sym "v0"))) =
        Except.ok l ∧ l.length = c1WitnessDevice.n ∧
      (∀ i : Nat, i < c1WitnessDevice.n → l[i]? = some (specSubstEach
        (fun s => (List.lookup s c1WitnessDevice.vals).map
          (fun arr => arr.getD i (Expr.const 0)))
        (Expr.add (Expr.sym "v") (Expr.neg (Expr.sym "v0"))))) ∧
      (∀ (i : Nat) (e2 : Expr), l[i]? = some e2 →
        ∀ s ∈ (Expr.add (Expr.sym "v") (Expr.neg (Expr.sym "v0"))).freeSyms,
          s ∉ e2.freeSymsList) :=
  c1_vectorized_expansion c1WitnessDevice
    (Expr.add (Expr.sym "v") (Expr.neg (Expr.sym "v0"))) "v" ["v0"]
    (by decide) (by decide) (by decide)

theorem mapE_ok_of_forall₂ {α β : Type} (f : α → Except PyErr β)
    (l : List α) (r : List β)
    (h : List.Forall₂ (fun a b => f a = Except.ok b) l r) :
    mapE f l = Except.ok r := by
  induction h with
  | nil => rfl
  | cons ha _ ih => simp [mapE, ha, ih]

theorem mapE_getElem_take {α : Type} (l : List α) (dflt : α) (err : PyErr)
    (n : Nat) (h : n ≤ l.length) :
    mapE (fun i => getItemOr l[i]? err) (List.range n) =
    Except.ok (l.take n) := by
  have hmap := mapE_ok_of_forall (fun i => getItemOr l[i]? err)
    (fun i => l.getD i dflt) (List.range n) ?hpt
  case hpt =>
    intro i hi
    have hilen : i < l.length := Nat.lt_of_lt_of_le (List.mem_range.mp hi) h
    simp [getItemOr, List.getElem?_eq_getElem hilen,
      List.getD_eq_getElem?_getD]
  rw [hmap, range_map_getD_eq_take l dflt n h]

/-- Under the bijection invariant established at element creation — the
i-th inserted idx is mapped to row i — pushing the device's own idx list
through its `idx2int` yields exactly the identity row list `range n`. -/
theorem idx2int_standard (ref : Device)
    (hbij : List.Forall₂ (fun a r => List.lookup a ref.intMap = some r)
      ref.idx (List.range ref.n)) :
    ref.idx2int ref.idx = Except.ok (List.range ref.n) := by
  unfold Device.idx2int
  apply mapE_ok_of_forall₂
  apply List.Forall₂.imp ?_ hbij
  intro a b hab
  simp [hab]

/-- `create_n_default_elements` establishes the standard insertion
bijection between idx values and row indices. -/
theorem create_n_default_elements_bijection (d : Device) (n : Nat) :
    List.Forall₂ (fun a r =>
      List.lookup a (d.create_n_default_elements n).intMap = some r)
      (d.create_n_default_elements n).idx
      (List.range (d.create_n_default_elements n).n) := by
  have hn : (d.create_n_default_elements n).n = n := by
    simp [Device.n, Device.create_n_default_elements]
  rw [hn]
  have hidx : (d.create_n_default_elements n).idx = List.range n := rfl
  rw [hidx]
  apply List.forall₂_same.mpr
  intro a ha
  exact List.lookup_graph (fun i => i) ha

theorem getAlgebExtGo_single (sys : DSystem) (d : Device)
    (dest fkey var_name : String) :
    getAlgebExtGo sys d [(dest, fkey, var_name)] =
      d.resolve_algeb_ext_entry sys dest fkey var_name := by
  simp only [getAlgebExtGo]
  cases h : d.resolve_algeb_ext_entry sys dest fkey var_name with
  | error e => rfl
  | ok d2 => rfl

/-- C2: when the key of an interface-variable import is not a declared
parameter of the importing device, `get_algeb_ext` treats it as a
device-class name and establishes the default 1:1 structural mapping:
the referenced device's own idx list is converted to row indices through
its `idx2int`, which under the insertion bijection yields exactly the rows
0..n-1 in order, so the importing side's entry i refers to the referenced
device's element i; the symbol array and dae-address array imported under
`dest` are the first n entries, in row order, of the referenced device's
arrays for the source variable. -/
theorem c2_default_one_to_one (d : Device) (sys : DSystem)
    (dest fkey var_name : String) (ref : Device)
    (hparam : fkey ∉ d.param_int)
    (href : List.lookup (pyLower fkey) sys.devices = some ref)
    (hbij : List.Forall₂ (fun a r => List.lookup a ref.intMap = some r)
      ref.idx (List.range ref.n))
    (varr : List Expr) (hvarr : List.lookup var_name ref.vals = some varr)
    (hvlen : ref.n ≤ varr.length)
    (addr : List Nat) (haddr : List.lookup var_name ref.daeAddress = some addr)
    (halen : ref.n ≤ addr.length) :
    d.resolve_algeb_ext_entry sys dest fkey var_name = Except.ok
      { d with daeAddress := assocSet d.daeAddress dest (addr.take ref.n),
               vals := assocSet d.vals dest (varr.take ref.n),
               symbol_singleton :=
                 assocSet d.symbol_singleton dest var_name } ∧
    (d.algeb_ext = [(dest, fkey, var_name)] → d.get_algeb_ext sys = Except.ok
      { d with daeAddress := assocSet d.daeAddress dest (addr.take ref.n),
               vals := assocSet d.vals dest (varr.take ref.n),
               symbol_singleton :=
                 assocSet d.symbol_singleton dest var_name }) ∧
    ref.idx2int ref.idx = Except.ok (List.range ref.n) ∧
    (∀ i : Nat, i < ref.n →
      (varr.take ref.n)[i]? = varr[i]? ∧
      (addr.take ref.n)[i]? = addr[i]?) := by
  have hattr : sys.attr fkey = Except.ok ref := by
    unfold DSystem.attr
    rw [href]
  have hidx := idx2int_standard ref hbij
  have haddrmap := mapE_getElem_take addr 0
    (PyErr.indexError "index out of range") ref.n halen
  have hsyms : getListOfSymbolsFromExt sys fkey var_name (List.range ref.n) =
      Except.ok (varr.take ref.n) := by
    unfold getListOfSymbolsFromExt
    rw [hattr]
    simp only [hvarr]
    exact mapE_getElem_take varr (Expr.const 0)
      (PyErr.indexError "list index out of range") ref.n hvlen
  have hmain : d.resolve_algeb_ext_entry sys dest fkey var_name = Except.ok
      { d with daeAddress := assocSet d.daeAddress dest (addr.take ref.n),
               vals := assocSet d.vals dest (varr.take ref.n),
               symbol_singleton :=
                 assocSet d.symbol_singleton dest var_name } := by
    unfold Device.resolve_algeb_ext_entry
    rw [if_neg hparam]
    simp only [hattr, hidx, haddr, haddrmap, hsyms]
  refine ⟨hmain, fun halg => ?_, hidx, ?_⟩
  · unfold Device.get_algeb_ext
    nth_rewrite 1 [halg]
    rw [getAlgebExtGo_single, hmain]
  · intro i hi
    exact ⟨List.getElem?_take_of_lt hi, List.getElem?_take_of_lt hi⟩

/-- A two-element Bus device created through
`create_n_default_elements 2`, with its interface variable a symbolized and
given dae addresses 3 and 4. -/
def c2BusDevice : Device :=
  { (blankDevice.create_n_default_elements 2) with
      className := "Bus",
      algeb_int := ["a", "v"],
      vals := [("a", [Expr.sym "Bus_a_0", Expr.sym "Bus_a_1"])],
      daeAddress := [("a", [3, 4])] }

/-- A PV device importing the Bus interface variable a through the direct
device-class key Bus, which is not one of its declared parameters. -/
def c2PVDevice : Device :=
  { blankDevice with
      className := "PV", idx := [0], intMap := [(0, 0)],
      algeb_ext := [("a", "Bus", "a")] }

def c2System : DSystem :=
  { devices := [("bus", c2BusDevice), ("pv", c2PVDevice)] }

theorem c2_witness :
    c2PVDevice.resolve_algeb_ext_entry c2System "a" "Bus" "a" = Except.ok
      { c2PVDevice with
          daeAddress := assocSet c2PVDevice.daeAddress "a"
            (List.take c2BusDevice.n [3, 4]),
          vals := assocSet c2PVDevice.vals "a"
            (List.take c2BusDevice.n
              [Expr.sym "Bus_a_0", Expr.sym "Bus_a_1"]),
          symbol_singleton :=
            assocSet c2PVDevice.symbol_singleton "a" "a" } ∧
    (c2PVDevice.algeb_ext = [("a", "Bus", "a")] →
      c2PVDevice.get_algeb_ext c2System = Except.ok
        { c2PVDevice with
            daeAddress := assocSet c2PVDevice.daeAddress "a"
              (List.take c2BusDevice.n [3, 4]),
            vals := assocSet c2PVDevice.vals "a"
              (List.take c2BusDevice.n
                [Expr.sym "Bus_a_0", Expr.sym "Bus_a_1"]),
            symbol_singleton :=
              assocSet c2PVDevice.symbol_singleton "a" "a" }) ∧
    c2BusDevice.idx2int c2BusDevice.idx =
      Except.ok (List.range c2BusDevice.n) ∧
    (∀ i : Nat, i < c2BusDevice.n →
      (List.take c2BusDevice.n
        [Expr.sym "Bus_a_0", Expr.sym "Bus_a_1"])[i]? =
        [Expr.sym "Bus_a_0", Expr.sym "Bus_a_1"][i]? ∧
      (List.take c2BusDevice.n [3, 4])[i]? = [3, 4][i]?) :=
  c2_default_one_to_one c2PVDevice c2System "a" "Bus" "a" c2BusDevice
    (by decide) (by decide) (create_n_default_elements_bijection blankDevice 2)
    [Expr.sym "Bus_a_0", Expr.sym "Bus_a_1"] rfl (by decide)
    [3, 4] rfl (by decide)

end Dian
